import Mathlib

/-!
# Verification of the RSecurity CVE dashboard core

Shallow embedding of the repository's core operations, translated from the
TypeScript sources:

* `src/backend/src/db.ts` — the SQLite-backed record store (`insertCVE`,
  `getDBStats`);
* `src/backend/src/sync-service.ts` — the sync engine (`syncCVEData`,
  `startBackgroundSync`, `performBackgroundSync`, `storeCVEsInBackground`);
* `src/frontend/src/services/api.ts` — the client request layer
  (`makeRequest`, `calculateRetryDelay`, `getScoreCategory`);
* `src/frontend/src/hooks/useFilters.ts` — the `useVirtualScroll` hook;
* `src/frontend/src/components/VirtualizedCVEList/VirtualizedCVEList.tsx` —
  the grid render window;
* the `formatCVSSScore` helper of the `CVECard` component.

JavaScript numbers are embedded as `ℚ` (every comparison performed by the
code on CVSS scores, pixel offsets and delays is exact at the values that
matter here), counters as `ℕ`, and asynchronous code as explicit state
passing or as a schedule-indexed run function.
-/

namespace RSec

/-- Payload of a CVE record as supplied to the store, mirroring the `CVE`
interface of `src/backend/src/db.ts` (without the surrogate `id`, which the
store assigns). `cvss_score` is a JS number, embedded as `ℚ`. -/
structure CVERec where
  cve_id : String
  description : String
  severity : String
  published_date : String
  modified_date : String
  cvss_score : ℚ
  raw_data : String
  deriving Repr, DecidableEq

/-- A row of the `cves` table: the payload plus the surrogate key `id`
(SQLite `INTEGER PRIMARY KEY AUTOINCREMENT`). -/
structure CVERow where
  id : ℕ
  payload : CVERec
  deriving Repr, DecidableEq

/-- The `cves` table of `src/backend/src/db.ts`: its rows plus the
autoincrement sequence value that the next inserted row will receive.
SQLite rowids start at 1. -/
structure CvesTable where
  rows : List CVERow
  nextId : ℕ
  deriving Repr, DecidableEq

/-- The freshly created table (`initDB`): no rows, first rowid 1. -/
def initialTable : CvesTable := ⟨[], 1⟩

/-- `insertCVE` of `src/backend/src/db.ts`. The statement executed is
`INSERT OR REPLACE INTO cves (cve_id, description, severity,
published_date, modified_date, cvss_score, raw_data) VALUES (…)` against a
table whose `cve_id` column is `UNIQUE` and whose `id` column is
`INTEGER PRIMARY KEY AUTOINCREMENT`. Per SQLite semantics, `OR REPLACE`
deletes any existing row that conflicts on the `cve_id` unique constraint
and then inserts the new row; since `id` is not in the column list it is
assigned afresh from the autoincrement sequence. The function resolves with
`this.lastID`, the rowid of the newly inserted row. -/
def insertCVE (t : CvesTable) (c : CVERec) : CvesTable × ℕ :=
  (⟨t.rows.filter (fun r => r.payload.cve_id ≠ c.cve_id) ++ [⟨t.nextId, c⟩],
    t.nextId + 1⟩, t.nextId)

/-- Sequential insertion of a list of records (the store loop of the sync
engine applied to the table). -/
def insertCVEList (t : CvesTable) (l : List CVERec) : CvesTable :=
  l.foldl (fun t c => (insertCVE t c).1) t

/-- `getDBStats` of `src/backend/src/db.ts`: `SELECT COUNT(*) FROM cves`. -/
def countCVEs (t : CvesTable) : ℕ := t.rows.length

/-- Does the table hold a row for the given external id? -/
def hasCVE (t : CvesTable) (cid : String) : Prop :=
  ∃ r ∈ t.rows, r.payload.cve_id = cid

instance (t : CvesTable) (cid : String) : Decidable (hasCVE t cid) := by
  unfold hasCVE; infer_instance

/-- Well-formedness maintained by the schema: the `UNIQUE` constraint on
`cve_id` (no two rows share an external id) and the autoincrement sequence
dominating every assigned rowid. -/
structure TableWF (t : CvesTable) : Prop where
  uniq : t.rows.Pairwise (fun r s => r.payload.cve_id ≠ s.payload.cve_id)
  idLt : ∀ r ∈ t.rows, r.id < t.nextId

/-! ## Severity derivation from CVSS scores -/

/-- `getScoreCategory` of `src/frontend/src/services/api.ts`:
`if (score >= 9.0) return 'Critical'; if (score >= 7.0) return 'High';
if (score >= 4.0) return 'Medium'; if (score >= 0.1) return 'Low';
return 'None';`. -/
def getScoreCategory (score : ℚ) : String :=
  if score ≥ 9 then "Critical"
  else if score ≥ 7 then "High"
  else if score ≥ 4 then "Medium"
  else if score ≥ 1/10 then "Low"
  else "None"

/-- Result of `formatCVSSScore` in the `CVECard` component: the rendered
score (`score.toFixed(1)`, abstracted here to the underlying numeric value,
with `none` standing for the literal display `'N/A'`) and the severity
class. -/
structure FormattedScore where
  display : Option ℚ
  severity : String
  deriving Repr, DecidableEq

/-- `formatCVSSScore` of the `CVECard` component:
`if (score >= 9.0) … 'critical'; if (score >= 7.0) … 'high';
if (score >= 4.0) … 'medium'; if (score > 0) … 'low';
return { display: 'N/A', severity: 'unknown' };`. -/
def formatCVSSScore (score : ℚ) : FormattedScore :=
  if score ≥ 9 then ⟨some score, "critical"⟩
  else if score ≥ 7 then ⟨some score, "high"⟩
  else if score ≥ 4 then ⟨some score, "medium"⟩
  else if score > 0 then ⟨some score, "low"⟩
  else ⟨none, "unknown"⟩

/-! ## Virtual render windows -/

/-- The window computed by the `useVirtualScroll` hook of
`src/frontend/src/hooks/useFilters.ts`:
`startIndex = Math.max(0, Math.floor(scrollTop / itemHeight) - overscan)`,
`endIndex = Math.min(itemCount - 1,
Math.ceil((scrollTop + containerHeight) / itemHeight) + overscan)`.
Pixel quantities are JS numbers, embedded as `ℚ`; the resulting indices are
integers (`itemCount - 1` may be `-1` for an empty list). -/
def useVirtualScroll (itemCount : ℕ) (itemHeight containerHeight : ℚ)
    (overscan : ℕ) (scrollTop : ℚ) : ℤ × ℤ :=
  (max 0 (⌊scrollTop / itemHeight⌋ - overscan),
   min ((itemCount : ℤ) - 1) (⌈(scrollTop + containerHeight) / itemHeight⌉ + overscan))

/-- The render window as worded by the spec: `[startIndex, endIndex]`
inclusive with `startIndex = max(0, floor(scrollOffset/itemExtent) -
overscan)` and `endIndex = min(itemCount-1,
ceil((scrollOffset+containerExtent)/itemExtent) + overscan)`. Kept as a
separate definition so the code can be compared against the spec's words. -/
def specRenderWindow (itemCount : ℕ) (itemExtent containerExtent : ℚ)
    (overscan : ℕ) (scrollOffset : ℚ) : ℤ × ℤ :=
  (max 0 (⌊scrollOffset / itemExtent⌋ - overscan),
   min ((itemCount : ℤ) - 1) (⌈(scrollOffset + containerExtent) / itemExtent⌉ + overscan))

/-- `CARD_HEIGHT` of `VirtualizedCVEList.tsx`. -/
def cardHeight : ℚ := 360

/-- `ITEMS_TO_RENDER_BUFFER` of `VirtualizedCVEList.tsx`. -/
def renderBuffer : ℕ := 6

/-- The row window of the grid component `VirtualizedCVEList.tsx`:
`totalRows = Math.ceil(cves.length / itemsPerRow)`,
`visibleRowCount = Math.ceil(containerHeight / CARD_HEIGHT)`,
`startRow = Math.floor(scrollTop / CARD_HEIGHT)`,
`endRow = Math.min(totalRows - 1, startRow + visibleRowCount +
ITEMS_TO_RENDER_BUFFER)`, `visibleStartRow = Math.max(0, startRow -
ITEMS_TO_RENDER_BUFFER)`, `visibleEndRow = Math.min(totalRows - 1, endRow)`.
Returns `(visibleStartRow, visibleEndRow)`. -/
def gridRowWindow (cveCount itemsPerRow : ℕ) (scrollTop containerHeight : ℚ) :
    ℤ × ℤ :=
  let totalRows : ℤ := ⌈(cveCount : ℚ) / (itemsPerRow : ℚ)⌉
  let visibleRowCount : ℤ := ⌈containerHeight / cardHeight⌉
  let startRow : ℤ := ⌊scrollTop / cardHeight⌋
  let endRow : ℤ := min (totalRows - 1) (startRow + visibleRowCount + renderBuffer)
  (max 0 (startRow - renderBuffer), min (totalRows - 1) endRow)

/-! ## The client request layer (`makeRequest` of `src/frontend/src/services/api.ts`) -/

/-- Options of `makeRequest`, with the defaults destructured at its top:
`enableRetry = true`, `retryAttempts = MAX_RETRY_ATTEMPTS = 3`,
`retryDelay = 1000`, `enableCache = true`,
`cacheTimeout = CACHE_TIMEOUT = 5 * 60 * 1000`, `deduplication = true`. -/
structure ReqConfig where
  enableRetry : Bool := true
  retryAttempts : ℕ := 3
  retryDelay : ℚ := 1000
  enableCache : Bool := true
  cacheTimeout : ℚ := 300000
  deduplication : Bool := true
  deriving Repr, DecidableEq

/-- `calculateRetryDelay(attempt, baseDelay) = Math.min(baseDelay *
Math.pow(2, attempt) + Math.random() * 1000, 10000)`. The call to
`Math.random() * 1000` is passed in as `jitter`. -/
def calculateRetryDelay (attempt : ℕ) (baseDelay jitter : ℚ) : ℚ :=
  min (baseDelay * 2 ^ attempt + jitter) 10000

/-- Result of one invocation of the underlying request function: either a
payload, or a failure carrying the optional HTTP status of the `ApiError`
built by the response interceptor (`none` when the failure is
network-level and `error.response` is absent). -/
inductive ReqOutcome (T : Type) where
  | ok : T → ReqOutcome T
  | err : Option ℕ → ReqOutcome T
  deriving Repr, DecidableEq

/-- The retry classification inside `executeRequest`:
`apiError.status ? apiError.status >= 500 : true`. JavaScript truthiness
makes a status of `0` fall into the `true` (retryable) branch exactly like
a missing status. -/
def retryableStatus (status : Option ℕ) : Bool :=
  match status with
  | some s => if s = 0 then true else decide (500 ≤ s)
  | none => true

/-- The guard of the recursive retry in `executeRequest`:
`enableRetry && attempt < retryAttempts && (apiError.status ?
apiError.status >= 500 : true)`. -/
def shouldRetry (cfg : ReqConfig) (attempt : ℕ) (status : Option ℕ) : Bool :=
  cfg.enableRetry && decide (attempt < cfg.retryAttempts) && retryableStatus status

/-- `executeRequest(attempt)` of `makeRequest`: checks the network monitor
(an offline state throws an error without a status, and without invoking
the request function), invokes `requestFn`, and on failure recurses with
`attempt + 1` when `shouldRetry` holds. `online k` and `outcomes k` give
the connectivity state seen by, and the outcome of, the `k`-th attempt.
Returns the final result together with the number of times the underlying
request function was invoked. -/
def executeRequest (cfg : ReqConfig) (online : ℕ → Bool)
    (outcomes : ℕ → ReqOutcome T) (attempt : ℕ) : Except (Option ℕ) T × ℕ :=
  let o := if online attempt then outcomes attempt else ReqOutcome.err none
  let inv : ℕ := if online attempt then 1 else 0
  match o with
  | .ok v => (.ok v, inv)
  | .err st =>
    if h : shouldRetry cfg attempt st then
      let r := executeRequest cfg online outcomes (attempt + 1)
      (r.1, inv + r.2)
    else (.error st, inv)
  termination_by cfg.retryAttempts - attempt
  decreasing_by
    simp only [shouldRetry, Bool.and_eq_true, decide_eq_true_eq] at h
    omega

/-- Per-key state of the `ApiCache`: the cached entry for the key (payload
with its `expiresAt` time) and the identifier of the in-flight request
registered for the key, if any. -/
structure CacheState (T : Type) where
  entry : Option (T × ℚ)
  pendingId : Option ℕ
  deriving Repr, DecidableEq

/-- `ApiCache.get`: an entry that is missing or past `expiresAt` is deleted
and reported as a miss (`!entry || Date.now() > entry.expiresAt`). -/
def cacheGet (now : ℚ) (st : CacheState T) : Option T × CacheState T :=
  match st.entry with
  | none => (none, st)
  | some (d, exp) => if now > exp then (none, ⟨none, st.pendingId⟩) else (some d, st)

/-- What a call of `makeRequest` does before the first suspension point:
serve the cached payload, adopt the promise of the pending request with the
same key, or start a new request (invoking the underlying request function
exactly once right away). -/
inductive ReqAction (T : Type) where
  | returnCached : T → ReqAction T
  | returnPending : ℕ → ReqAction T
  | startRequest : ℕ → ReqAction T
  deriving Repr, DecidableEq

/-- The fall-through tail of `makeRequest`: `executeRequest()` is called
(invoking the request function synchronously before its first `await`) and
the new promise is registered as the key's pending request when
`cacheKey && deduplication` — note this registration does not consult
`enableCache`. -/
def makeRequestStart (cfg : ReqConfig) (hasKey : Bool) (newId : ℕ)
    (st : CacheState T) : ReqAction T × CacheState T :=
  (.startRequest newId,
   if hasKey && cfg.deduplication then { st with pendingId := some newId } else st)

/-- The synchronous prefix of `makeRequest` for one key: the
`if (cacheKey && enableCache)` block performs the cache lookup and — when
`deduplication` — the in-flight lookup, and otherwise the call falls
through to `makeRequestStart`. `hasKey` states whether a `cacheKey` was
supplied, `now` is `Date.now()`, `newId` identifies the promise a fresh
request would create. -/
def makeRequestStep (cfg : ReqConfig) (hasKey : Bool) (now : ℚ) (newId : ℕ)
    (st : CacheState T) : ReqAction T × CacheState T :=
  if hasKey && cfg.enableCache then
    match cacheGet now st with
    | (some d, st') => (.returnCached d, st')
    | (none, st') =>
      if cfg.deduplication then
        match st'.pendingId with
        | some pid => (.returnPending pid, st')
        | none => makeRequestStart cfg hasKey newId st'
      else makeRequestStart cfg hasKey newId st'
  else makeRequestStart cfg hasKey newId st

/-- Number of invocations of the underlying request function performed (so
far) by the call that produced the action: starting a request invokes it
once; serving the cache or adopting a pending promise invokes it not at
all. -/
def actionInvocations (a : ReqAction T) : ℕ :=
  match a with
  | .startRequest _ => 1
  | _ => 0

/-! ## The sync engine (`src/backend/src/sync-service.ts`) -/

/-- An entry of a sync run's `errors` array. -/
structure SyncError where
  cve_id : String
  error : String
  deriving Repr, DecidableEq

/-- The `SyncResult` interface. -/
structure SyncResult where
  success : Bool
  fetched : ℕ
  stored : ℕ
  errors : List SyncError
  message : String
  deriving Repr, DecidableEq

/-- The success message template of `syncCVEData`. -/
def syncMessage (stored : ℕ) (errs : List SyncError) : String :=
  "Successfully synced " ++ toString stored ++ " CVEs" ++
    (if errs.length > 0 then " with " ++ toString errs.length ++ " errors" else "")

/-- The store loop of `syncCVEData` (and the body of
`storeCVEsInBackground`): each record is passed to `insertCVE`; a success
increments the stored count, a rejection pushes `{cve_id, error}` onto the
errors array and the loop continues with the next record. `storeErr i`
gives the outcome of the `insertCVE` call for the `i`-th record of the
traversal (`none` = resolved, `some msg` = rejected with `msg`). -/
def storeLoopFrom (storeErr : ℕ → Option String) :
    ℕ → List CVERec → ℕ × List SyncError
  | _, [] => (0, [])
  | i, c :: rest =>
    let r := storeLoopFrom storeErr (i + 1) rest
    match storeErr i with
    | none => (r.1 + 1, r.2)
    | some m => (r.1, ⟨c.cve_id, m⟩ :: r.2)

/-- The store loop started at index 0. -/
def storeLoop (cves : List CVERec) (storeErr : ℕ → Option String) :
    ℕ × List SyncError :=
  storeLoopFrom storeErr 0 cves

/-- The successful tail of `syncCVEData` once the fetch has resolved with
`cves`: the empty-fetch early return, or the store loop followed by the
construction of the `SyncResult` with `success: true`,
`fetched: cves.length`. -/
def syncBody (cves : List CVERec) (storeErr : ℕ → Option String) : SyncResult :=
  if cves.length = 0 then
    ⟨true, 0, 0, [], "No CVE data received from NIST API"⟩
  else
    let r := storeLoop cves storeErr
    ⟨true, cves.length, r.1, r.2, syncMessage r.1 r.2⟩

/-- The static fields of `SyncService`: the single-flight flag
`isRunning`, the `backgroundSyncProcess` handle (modelled as its
non-nullness), and `lastSyncResult`. -/
structure SyncState where
  isRunning : Bool
  backgroundSyncProcess : Bool
  lastSyncResult : Option SyncResult
  deriving Repr, DecidableEq

/-- The `SyncResult` recorded by the catch block of `syncCVEData` before it
rethrows. -/
def syncFailureResult (msg : String) : SyncResult :=
  ⟨false, 0, 0, [⟨"SYNC_ERROR", msg⟩], "Sync operation failed: " ++ msg⟩

/-- `SyncService.syncCVEData` (blocking sync): throws
`'Sync operation is already in progress'` when `isRunning` is set; sets
`isRunning`, checks database health, runs the fetch (whose outcome is the
`fetch` parameter) and the store loop, records `lastSyncResult`, and —
in the `finally` block, on success and failure alike — clears
`isRunning`. The returned `Except` is the promise outcome. -/
def syncCVEData (st : SyncState) (dbHealthy : Bool)
    (fetch : Except String (List CVERec)) (storeErr : ℕ → Option String) :
    Except String SyncResult × SyncState :=
  if st.isRunning then
    (.error "Sync operation is already in progress", st)
  else
    let st1 := { st with isRunning := true }
    if dbHealthy then
      match fetch with
      | .error e =>
        (.error e,
         { st1 with isRunning := false, lastSyncResult := some (syncFailureResult e) })
      | .ok cves =>
        let r := syncBody cves storeErr
        (.ok r, { st1 with isRunning := false, lastSyncResult := some r })
    else
      let msg := "Database is not healthy - cannot proceed with sync"
      (.error msg,
       { st1 with isRunning := false, lastSyncResult := some (syncFailureResult msg) })

/-- `SyncService.getSyncStatus().isRunning`. -/
def getSyncStatusIsRunning (st : SyncState) : Bool := st.isRunning

/-- `SyncService.startBackgroundSync`: `if (this.isRunning ||
this.backgroundSyncProcess) return;` — otherwise it stores the promise of
`performBackgroundSync` in `backgroundSyncProcess` and returns without
awaiting it. The Boolean reports whether a run was started. -/
def startBackgroundSync (st : SyncState) : Bool × SyncState :=
  if st.isRunning || st.backgroundSyncProcess then (false, st)
  else (true, { st with backgroundSyncProcess := true })

/-! ## The background sync run (`performBackgroundSync`)

`performBackgroundSync` awaits `fetchAllCVEsInChunks`, whose progress
callback fires after every fetched chunk; the callback spawns
`storeCVEsInBackground(chunk).then(…)` WITHOUT awaiting it. On the
single-threaded event loop, a spawned store task (which awaits `insertCVE`,
an I/O macrotask) can only resolve while the fetch loop is itself awaiting
a later page; once the final page resolves, the continuation of the
`await fetchAllCVEsInChunks` — which publishes the `storing` progress and
then immediately the `complete` progress and the result — runs before any
store completion callback. The run model below is indexed by a schedule
giving how many pending store tasks resolve (in spawn order) between
consecutive page fetches.

`fetchAllCVEsInChunks` itself lives in `src/backend/src/cve-service.ts`,
which is not part of the source tree; its progress callback contract is
modelled from the spec: `onProgress({current, total, percentage,
records: <this chunk>})` is invoked after every page, `current`/`total`
being the records fetched so far and the upstream's total. -/

/-- The `phase` field of `SyncProgress`. -/
inductive SyncPhase where
  | fetching
  | storing
  | complete
  deriving Repr, DecidableEq

/-- The in-memory `SyncProgress` object (its timing fields `startTime` and
`estimatedTimeRemaining`, irrelevant to the claims below, are omitted). -/
structure SyncProgress where
  current : ℕ
  total : ℕ
  percentage : ℚ
  phase : SyncPhase
  deriving Repr, DecidableEq

/-- One chunk delivered by the fetcher's progress callback, together with
the outcomes of the `insertCVE` calls its store task will perform. -/
structure Chunk where
  records : List CVERec
  storeErr : ℕ → Option String

/-- Mid-run state of the background sync: records fetched so far, spawned
store tasks not yet resolved (in spawn order, each carrying the
`{success, errors}` value its promise will deliver), the `totalStored` and
`errors` accumulators mutated by the `.then` handlers of resolved tasks,
and the list of progress values published so far. -/
structure BgState where
  fetched : ℕ
  pending : List (ℕ × List SyncError)
  stored : ℕ
  errors : List SyncError
  trace : List SyncProgress
  deriving Repr, DecidableEq

/-- Resolution of up to `k` pending store tasks, oldest first: each runs
its `.then` handler `totalStored += stored.success;
errors.push(...stored.errors)`. -/
def resolveStores : ℕ → BgState → BgState
  | 0, s => s
  | k + 1, s =>
    match s.pending with
    | [] => s
    | t :: rest =>
      resolveStores k
        { s with pending := rest, stored := s.stored + t.1, errors := s.errors ++ t.2 }

/-- The observable outcome of a background run: the published progress
trace, the store tasks still outstanding at the moment the `complete`
progress was published, and the recorded `SyncResult`. -/
structure BgOutcome where
  trace : List SyncProgress
  outstanding : List (ℕ × List SyncError)
  result : SyncResult
  deriving Repr, DecidableEq

/-- The progress value published by the fetch callback (phase stays
`fetching`; `current`/`total` / `percentage` as reported by the fetcher,
modelled from the spec as records-so-far over the upstream total). -/
def bgFetchProgress (totalResults fetched : ℕ) : SyncProgress :=
  ⟨fetched, totalResults,
   if totalResults = 0 then 0 else 100 * (fetched : ℚ) / (totalResults : ℚ),
   .fetching⟩

/-- The success message template of `performBackgroundSync`. -/
def bgMessage (stored : ℕ) (errs : List SyncError) : String :=
  "Successfully synced " ++ toString stored ++ " CVEs in background" ++
    (if errs.length > 0 then " with " ++ toString errs.length ++ " errors" else "")

/-- The synchronous continuation after `await fetchAllCVEsInChunks`
resolves (lines 447–476 of `sync-service.ts`): it publishes the `storing`
progress `{current: totalFetched, total: totalFetched, percentage: 100}`,
builds the `SyncResult` from the accumulators as they stand, records it,
and publishes the `complete` progress `{current: totalStored,
total: totalFetched, percentage: 100}` — all without a suspension point,
so the tasks pending at entry are still outstanding at the end. -/
def bgComplete (s : BgState) : BgOutcome :=
  let storingP : SyncProgress := ⟨s.fetched, s.fetched, 100, .storing⟩
  let completeP : SyncProgress := ⟨s.stored, s.fetched, 100, .complete⟩
  ⟨s.trace ++ [storingP, completeP], s.pending,
   ⟨true, s.fetched, s.stored, s.errors, bgMessage s.stored s.errors⟩⟩

/-- The fetch loop of the background run: each chunk's arrival publishes a
`fetching` progress and spawns its store task; while the next page is in
flight, `sched.headD 0` of the pending tasks resolve; when no chunk
remains, the continuation `bgComplete` runs immediately. -/
def bgRun (totalResults : ℕ) : List Chunk → List ℕ → BgState → BgOutcome
  | [], _, s => bgComplete s
  | c :: rest, sched, s =>
    let fetched' := s.fetched + c.records.length
    let s1 : BgState :=
      ⟨fetched', s.pending ++ [storeLoop c.records c.storeErr], s.stored, s.errors,
       s.trace ++ [bgFetchProgress totalResults fetched']⟩
    match rest with
    | [] => bgRun totalResults rest sched s1
    | _ :: _ => bgRun totalResults rest sched.tail (resolveStores (sched.headD 0) s1)

/-- A full background sync run: `performBackgroundSync` first publishes the
initial progress `{current: 0, total: 0, percentage: 0, phase: 'fetching'}`
and then runs the fetch loop. -/
def backgroundSyncRun (totalResults : ℕ) (chunks : List Chunk)
    (sched : List ℕ) : BgOutcome :=
  bgRun totalResults chunks sched ⟨0, [], 0, [], [⟨0, 0, 0, .fetching⟩]⟩

/-- A concrete record used for concrete evaluations. -/
def sampleRec (d : String) : CVERec :=
  ⟨"CVE-2024-0001", d, "HIGH", "2024-01-01", "2024-01-02", 7, "raw"⟩

/-!
# Theorems
-/

/-- C4, counterexample: the claim puts every score with `0 < score < 4.0`
in LOW, but `getScoreCategory` (whose LOW branch tests `score >= 0.1`)
sends the score `0.05` to `'None'`, not `'Low'`. -/
theorem C4_counterexample :
    0 < (1 / 20 : ℚ) ∧ (1 / 20 : ℚ) < 4 ∧
      getScoreCategory (1 / 20) ≠ "Low" ∧ getScoreCategory (1 / 20) = "None" := by
  have h9 : ¬((1 : ℚ) / 20 ≥ 9) := by norm_num
  have h7 : ¬((1 : ℚ) / 20 ≥ 7) := by norm_num
  have h4 : ¬((1 : ℚ) / 20 ≥ 4) := by norm_num
  have h1 : ¬((1 : ℚ) / 20 ≥ 1 / 10) := by norm_num
  refine ⟨by norm_num, by norm_num, ?_, ?_⟩ <;>
    simp only [getScoreCategory, if_neg h9, if_neg h7, if_neg h4, if_neg h1] <;>
    decide

/-- C4 (amended): for every score, both severity derivations yield
CRITICAL iff `score ≥ 9.0` (exactly `9.0` included), HIGH on
`[7.0, 9.0)`, MEDIUM on `[4.0, 7.0)`; `getScoreCategory` yields LOW on
`[0.1, 4.0)` and NONE below `0.1` (in particular on `(0, 0.1)`), while
`formatCVSSScore` yields LOW on all of `(0, 4.0)`; a score of `0` yields
NONE/UNKNOWN (with display `'N/A'`) in both. -/
theorem C4_theorem (s : ℚ) :
    (9 ≤ s → getScoreCategory s = "Critical" ∧ (formatCVSSScore s).severity = "critical") ∧
    (7 ≤ s → s < 9 → getScoreCategory s = "High" ∧ (formatCVSSScore s).severity = "high") ∧
    (4 ≤ s → s < 7 → getScoreCategory s = "Medium" ∧ (formatCVSSScore s).severity = "medium") ∧
    (1 / 10 ≤ s → s < 4 → getScoreCategory s = "Low") ∧
    (0 < s → s < 4 → (formatCVSSScore s).severity = "low") ∧
    (0 < s → s < 1 / 10 → getScoreCategory s = "None") ∧
    (s = 0 → getScoreCategory s = "None" ∧ formatCVSSScore s = ⟨none, "unknown"⟩) := by
  refine ⟨?_, ?_, ?_, ?_, ?_, ?_, ?_⟩ <;> intros <;>
    simp only [getScoreCategory, formatCVSSScore] <;> split_ifs <;>
    first
      | rfl
      | (exact ⟨rfl, rfl⟩)
      | linarith

/-- C4, witness: the spec's own boundary examples, via `C4_theorem`:
9.5 → CRITICAL, 7.0 → HIGH, 4.0 → MEDIUM, 0.5 → LOW (both derivations),
0 → NONE. -/
theorem C4_witness :
    getScoreCategory (19 / 2) = "Critical" ∧
      (formatCVSSScore 7).severity = "high" ∧
      getScoreCategory 4 = "Medium" ∧
      getScoreCategory (1 / 2) = "Low" ∧
      (formatCVSSScore (1 / 2)).severity = "low" ∧
      getScoreCategory 0 = "None" :=
  ⟨((C4_theorem (19 / 2)).1 (by norm_num)).1,
   ((C4_theorem 7).2.1 (by norm_num) (by norm_num)).2,
   ((C4_theorem 4).2.2.1 (by norm_num) (by norm_num)).1,
   (C4_theorem (1 / 2)).2.2.2.1 (by norm_num) (by norm_num),
   (C4_theorem (1 / 2)).2.2.2.2.1 (by norm_num) (by norm_num),
   ((C4_theorem 0).2.2.2.2.2.2 rfl).1⟩

/-- C7, counterexample: the claim's `endIndex` formula
`min(itemCount-1, ceil((scrollOffset+containerExtent)/itemExtent) +
overscan)` does not describe the grid component: at `scrollTop = 180`,
`containerHeight = 360` (row extent 360, buffer 6, 10 rows) the component
renders up to row `7` (`floor(180/360) + ceil(360/360) + 6`), while the
claimed formula gives `8` (`ceil(540/360) + 6`). -/
theorem C7_counterexample :
    (gridRowWindow 10 1 180 360).2 = 7 ∧
      (specRenderWindow 10 360 360 6 180).2 = 8 ∧ (7 : ℤ) ≠ 8 := by
  have hc1 : (⌈(360 : ℚ) / 360⌉ : ℤ) = 1 := by rw [Int.ceil_eq_iff] <;> norm_num
  have hc2 : (⌈(180 + 360 : ℚ) / 360⌉ : ℤ) = 2 := by rw [Int.ceil_eq_iff] <;> norm_num
  have hc3 : (⌈(10 : ℚ) / 1⌉ : ℤ) = 10 := by rw [Int.ceil_eq_iff] <;> norm_num
  have hf : (⌊(180 : ℚ) / 360⌋ : ℤ) = 0 := by norm_num
  refine ⟨?_, ?_, by decide⟩ <;>
    · simp only [gridRowWindow, specRenderWindow, cardHeight, renderBuffer,
        Nat.cast_ofNat, hc1, hc2, hc3, hf]
      norm_num

/-- C7 (amended): the `useVirtualScroll` hook computes exactly the claimed
inclusive window — `startIndex = max(0, floor(scrollOffset/itemExtent) -
overscan)`, `endIndex = min(itemCount-1,
ceil((scrollOffset+containerExtent)/itemExtent) + overscan)` — for every
positive item extent, and in particular `[1, 10]` on the cited instance;
the grid `VirtualizedCVEList`, however, computes its last rendered row as
`min(totalRows-1, floor(scrollTop/360) + ceil(containerHeight/360) + 6)`,
which differs from the ceil-of-sum form. -/
theorem C7_theorem :
    (∀ (itemCount : ℕ) (itemHeight containerHeight : ℚ) (overscan : ℕ)
        (scrollTop : ℚ), 0 < itemHeight →
        useVirtualScroll itemCount itemHeight containerHeight overscan scrollTop =
          specRenderWindow itemCount itemHeight containerHeight overscan scrollTop) ∧
    useVirtualScroll 50 100 500 2 300 = (1, 10) ∧
    (∀ (cveCount itemsPerRow : ℕ) (scrollTop containerHeight : ℚ),
        gridRowWindow cveCount itemsPerRow scrollTop containerHeight =
          (max 0 (⌊scrollTop / 360⌋ - 6),
           min (⌈(cveCount : ℚ) / (itemsPerRow : ℚ)⌉ - 1)
             (⌊scrollTop / 360⌋ + ⌈containerHeight / 360⌉ + 6))) := by
  refine ⟨fun _ _ _ _ _ _ => rfl, ?_, fun cveCount itemsPerRow s c => ?_⟩
  · have hc : (⌈(300 + 500 : ℚ) / 100⌉ : ℤ) = 8 := by rw [Int.ceil_eq_iff] <;> norm_num
    have hf : (⌊(300 : ℚ) / 100⌋ : ℤ) = 3 := by norm_num
    simp only [useVirtualScroll, hc, hf]
    norm_num
  · simp only [gridRowWindow, cardHeight, renderBuffer]
    push_cast
    rw [← min_assoc, min_self]

/-- C7, witness: the hook agrees with the spec formula at the cited
instance (item extent 100 > 0), where the window is `[1, 10]`. -/
theorem C7_witness :
    useVirtualScroll 50 100 500 2 300 = specRenderWindow 50 100 500 2 300 ∧
      useVirtualScroll 50 100 500 2 300 = (1, 10) :=
  ⟨C7_theorem.1 50 100 500 2 300 (by norm_num), C7_theorem.2.1⟩

/-! Store lemmas for the upsert claims. -/

/-- After `insertCVE`, the rows matching the inserted record's external id
are exactly the one new row (carrying the table's `nextId` and the new
payload): the `OR REPLACE` filter removed every other candidate. -/
theorem filter_insert_self (t : CvesTable) (c : CVERec) :
    ((insertCVE t c).1.rows.filter fun r => r.payload.cve_id = c.cve_id) =
      [⟨t.nextId, c⟩] := by
  simp only [insertCVE, List.filter_append]
  have h1 : ((t.rows.filter fun r => r.payload.cve_id ≠ c.cve_id).filter
      fun r => r.payload.cve_id = c.cve_id) = [] := by
    refine List.filter_eq_nil_iff.mpr ?_
    intro a ha
    rw [List.mem_filter] at ha
    simpa using ha.2
  have h2 : (([⟨t.nextId, c⟩] : List CVERow).filter
      fun r => r.payload.cve_id = c.cve_id) = [⟨t.nextId, c⟩] := by
    simp
  rw [h1, h2, List.nil_append]

/-- With unique external ids, removing the rows carrying a present
external id removes exactly one row. -/
theorem length_filter_ne_of_mem (rows : List CVERow) (cid : String)
    (hu : rows.Pairwise fun r s => r.payload.cve_id ≠ s.payload.cve_id)
    (hm : ∃ r ∈ rows, r.payload.cve_id = cid) :
    (rows.filter fun r => r.payload.cve_id ≠ cid).length + 1 = rows.length := by
  induction rows with
  | nil => simp at hm
  | cons a rest ih =>
    rw [List.pairwise_cons] at hu
    obtain ⟨ha, hu'⟩ := hu
    by_cases hc : a.payload.cve_id = cid
    · have hrest : (rest.filter fun r => r.payload.cve_id ≠ cid) = rest := by
        refine List.filter_eq_self.mpr ?_
        intro b hb
        have hab := ha b hb
        simp only [decide_eq_true_eq]
        intro hbc
        exact hab (by rw [hc, hbc])
      rw [List.filter_cons, if_neg (by simp [hc]), hrest, List.length_cons]
    · obtain ⟨r, hr, hrc⟩ := hm
      rcases List.mem_cons.mp hr with rfl | hr'
      · exact absurd hrc hc
      · have hih := ih hu' ⟨r, hr', hrc⟩
        rw [List.filter_cons, if_pos (by simp [hc]), List.length_cons,
          List.length_cons]
        omega

/-- Upserting a record whose external id is already present leaves the
row count unchanged. -/
theorem countCVEs_insert_of_has (t : CvesTable) (c : CVERec) (hw : TableWF t)
    (h : hasCVE t c.cve_id) : countCVEs (insertCVE t c).1 = countCVEs t := by
  simp only [countCVEs, insertCVE, List.length_append, List.length_singleton]
  have := length_filter_ne_of_mem t.rows c.cve_id hw.uniq h
  omega

/-- `insertCVE` preserves the table invariants (uniqueness of external
ids, ids dominated by the autoincrement sequence). -/
theorem TableWF_insert (t : CvesTable) (c : CVERec) (hw : TableWF t) :
    TableWF (insertCVE t c).1 := by
  constructor
  · rw [insertCVE, List.pairwise_append]
    refine ⟨hw.uniq.sublist (List.filter_sublist _), List.pairwise_singleton _ _, ?_⟩
    intro a ha b hb
    rw [List.mem_filter] at ha
    rw [List.mem_singleton] at hb
    subst hb
    simpa using ha.2
  · intro r hr
    rw [insertCVE, List.mem_append] at hr
    rcases hr with hr | hr
    · rw [List.mem_filter] at hr
      exact Nat.lt_succ_of_lt (hw.idLt r hr.1)
    · rw [List.mem_singleton] at hr
      subst hr
      exact Nat.lt_succ_self _

/-- `insertCVE` never removes an external id from the table. -/
theorem hasCVE_insert (t : CvesTable) (c : CVERec) (x : String)
    (h : hasCVE t x) : hasCVE (insertCVE t c).1 x := by
  obtain ⟨r, hr, he⟩ := h
  by_cases hx : x = c.cve_id
  · refine ⟨⟨t.nextId, c⟩, ?_, hx.symm⟩
    rw [insertCVE, List.mem_append]
    exact Or.inr (List.mem_singleton.mpr rfl)
  · refine ⟨r, ?_, he⟩
    rw [insertCVE, List.mem_append]
    refine Or.inl (List.mem_filter.mpr ⟨hr, ?_⟩)
    simp only [decide_eq_true_eq]
    rw [he]
    exact hx

/-- Re-upserting any list of already-present external ids leaves the row
count unchanged. -/
theorem countCVEs_insertList (t : CvesTable) (l : List CVERec) (hw : TableWF t)
    (hl : ∀ c ∈ l, hasCVE t c.cve_id) :
    countCVEs (insertCVEList t l) = countCVEs t := by
  induction l generalizing t with
  | nil => rfl
  | cons c rest ih =>
    have step : insertCVEList t (c :: rest) = insertCVEList (insertCVE t c).1 rest := rfl
    rw [step,
      ih (insertCVE t c).1 (TableWF_insert t c hw)
        (fun d hd => hasCVE_insert t c d.cve_id (hl d (List.mem_cons_of_mem c hd)))]
    exact countCVEs_insert_of_has t c hw (hl c (List.mem_cons_self c rest))

/-- C5: upserting two records with the same external id in sequence leaves
exactly one row for that external id, holding the second payload; and
re-upserting any list of already-present external ids leaves `count()`
unchanged. -/
theorem C5_theorem (t : CvesTable) (r1 r2 : CVERec) (l : List CVERec)
    (hw : TableWF t) (hid : r2.cve_id = r1.cve_id)
    (hl : ∀ c ∈ l, hasCVE t c.cve_id) :
    (((insertCVE (insertCVE t r1).1 r2).1.rows.filter
        fun r => r.payload.cve_id = r1.cve_id).map CVERow.payload = [r2]) ∧
    countCVEs (insertCVEList t l) = countCVEs t := by
  constructor
  · rw [← hid, filter_insert_self]
    rfl
  · exact countCVEs_insertList t l hw hl

/-- C5, witness: on a table holding the sample record, upserting two fresh
payloads under its external id leaves that single latest payload, and
re-upserting the resident record leaves the count at 1. -/
theorem C5_witness :
    (((insertCVE (insertCVE (insertCVE initialTable (sampleRec "a")).1
          (sampleRec "x")).1 (sampleRec "y")).1.rows.filter
        fun r => r.payload.cve_id = (sampleRec "x").cve_id).map CVERow.payload =
      [sampleRec "y"]) ∧
    countCVEs (insertCVEList (insertCVE initialTable (sampleRec "a")).1
        [sampleRec "z"]) =
      countCVEs (insertCVE initialTable (sampleRec "a")).1 :=
  C5_theorem (insertCVE initialTable (sampleRec "a")).1 (sampleRec "x")
    (sampleRec "y") [sampleRec "z"] ⟨by decide, by decide⟩ rfl (by decide)

/-- C6, counterexample: the first insert of the sample record is assigned
surrogate id 1, but after a second upsert with the same external id the
store's only row carries id 2 — `INSERT OR REPLACE` re-inserted the row
under a fresh autoincrement id, so the id did not survive the upsert. -/
theorem C6_counterexample :
    (insertCVE initialTable (sampleRec "first")).2 = 1 ∧
      ((insertCVE (insertCVE initialTable (sampleRec "first")).1
          (sampleRec "second")).1.rows.map CVERow.id) = [2] := by
  exact ⟨rfl, rfl⟩

/-- C6 (amended): upserting a record whose external id is already present
deletes the old row and inserts a new one whose surrogate id is the
table's next autoincrement value — which is necessarily different from
the id the row held before, so the surrogate id is NOT stable across
upserts. -/
theorem C6_theorem (t : CvesTable) (c : CVERec) (r : CVERow)
    (hw : TableWF t) (hr : r ∈ t.rows) (hid : r.payload.cve_id = c.cve_id) :
    (((insertCVE t c).1.rows.filter
        fun s => s.payload.cve_id = r.payload.cve_id).map
        CVERow.id = [t.nextId]) ∧ r.id ≠ t.nextId := by
  refine ⟨by rw [hid, filter_insert_self]; rfl, ?_⟩
  have := hw.idLt r hr
  omega

/-- Retrying forever-retryable failures performs exactly one invocation
per remaining allowed attempt, plus the final non-retried one. -/
theorem executeRequest_err_invocations {T : Type} (cfg : ReqConfig)
    (online : ℕ → Bool) (outcomes : ℕ → ReqOutcome T)
    (henr : cfg.enableRetry = true) (hon : ∀ k, online k = true)
    (hfail : ∀ k, ∃ s, outcomes k = .err s ∧ retryableStatus s = true) :
    ∀ (n attempt : ℕ), cfg.retryAttempts - attempt = n →
      (executeRequest cfg online outcomes attempt).2 = n + 1 := by
  intro n
  induction n with
  | zero =>
    intro attempt hn
    obtain ⟨s, hs, _⟩ := hfail attempt
    have hlt : ¬(attempt < cfg.retryAttempts) := by omega
    rw [executeRequest]
    simp [hon attempt, hs, shouldRetry, hlt]
  | succ m ih =>
    intro attempt hn
    obtain ⟨s, hs, hrs⟩ := hfail attempt
    have hsr : shouldRetry cfg attempt s = true := by
      have hlt : attempt < cfg.retryAttempts := by omega
      simp [shouldRetry, henr, hlt, hrs]
    rw [executeRequest]
    simp only [hon attempt, if_true, hs, hsr, dif_pos]
    rw [ih (attempt + 1) (by omega)]
    omega

/-- C8: with retries enabled, a first-attempt failure carrying a 4xx
status is never retried (the request function runs exactly once and the
error is surfaced as-is); failures with status ≥ 500 or without a status
are classified retryable and an all-retryable failure sequence is retried
up to the configured attempt count (`retryAttempts + 1` total
invocations); and the backoff delay for retry attempt `k` is
`baseDelay * 2^k` plus the jitter term, capped at 10000 ms. -/
theorem C8_theorem {T : Type} (cfg : ReqConfig) (online : ℕ → Bool)
    (outcomes : ℕ → ReqOutcome T) (hon : ∀ k, online k = true) :
    (∀ s : ℕ, outcomes 0 = .err (some s) → 400 ≤ s → s < 500 →
       executeRequest cfg online outcomes 0 = (.error (some s), 1)) ∧
    (cfg.enableRetry = true →
       (∀ k, ∃ s, outcomes k = .err s ∧ retryableStatus s = true) →
       (executeRequest cfg online outcomes 0).2 = cfg.retryAttempts + 1) ∧
    (∀ s : ℕ, 500 ≤ s → retryableStatus (some s) = true) ∧
    retryableStatus none = true ∧
    (∀ (k : ℕ) (base jitter : ℚ), 0 ≤ jitter → jitter < 1000 →
       calculateRetryDelay k base jitter = min (base * 2 ^ k + jitter) 10000 ∧
       calculateRetryDelay k base jitter ≤ 10000) := by
  refine ⟨?_, ?_, ?_, rfl, ?_⟩
  · intro s hs h4 h5
    have hns : retryableStatus (some s) = false := by
      simp only [retryableStatus, if_neg (by omega : ¬s = 0)]
      simp
      omega
    rw [executeRequest]
    simp [hon 0, hs, shouldRetry, hns]
  · intro henr hfail
    exact executeRequest_err_invocations cfg online outcomes henr hon hfail
      cfg.retryAttempts 0 rfl
  · intro s hle
    simp only [retryableStatus]
    split_ifs with h0
    · rfl
    · simpa using hle
  · intro k base jitter _ _
    exact ⟨rfl, min_le_right _ _⟩

/-- C8, witness: with the default config and connectivity, a 404 failure
runs the request exactly once; an all-500 failure sequence runs it
`3 + 1 = 4` times; and the first-retry delay for base 1000 and jitter 500
is `1000·2¹ + 500 = 2500 < 10000`. -/
theorem C8_witness :
    executeRequest ({} : ReqConfig) (fun _ => true)
        (fun _ => (ReqOutcome.err (some 404) : ReqOutcome ℕ)) 0 =
      (.error (some 404), 1) ∧
    (executeRequest ({} : ReqConfig) (fun _ => true)
        (fun _ => (ReqOutcome.err (some 500) : ReqOutcome ℕ)) 0).2 = 4 ∧
    calculateRetryDelay 1 1000 500 = 2500 := by
  refine ⟨?_, ?_, ?_⟩
  · exact (C8_theorem ({} : ReqConfig) (fun _ => true)
      (fun _ => (ReqOutcome.err (some 404) : ReqOutcome ℕ)) (fun _ => rfl)).1
      404 rfl (by norm_num) (by norm_num)
  · have h := (C8_theorem ({} : ReqConfig) (fun _ => true)
      (fun _ => (ReqOutcome.err (some 500) : ReqOutcome ℕ)) (fun _ => rfl)).2.1
      rfl (fun _ => ⟨some 500, rfl, by decide⟩)
    rw [h]
  · have h := (C8_theorem ({} : ReqConfig) (fun _ => true)
      (fun _ => (ReqOutcome.err (some 500) : ReqOutcome ℕ)) (fun _ => rfl)).2.2.2.2
      1 1000 500 (by norm_num) (by norm_num)
    rw [h.1]
    norm_num

/-- C9: with caching and deduplication enabled and no live cache entry, a
first call for a key starts a request (invoking the underlying request
function once, synchronously) and registers it as pending; a second call
for the same key before the first resolves returns the first call's
pending promise without invoking the request function — one invocation
across the two calls, and still at most one in-flight request for the
key. -/
theorem C9_theorem {T : Type} (cfg : ReqConfig) (now now2 : ℚ) (id1 id2 : ℕ)
    (hc : cfg.enableCache = true) (hd : cfg.deduplication = true) :
    makeRequestStep cfg true now id1 (⟨none, none⟩ : CacheState T) =
      (.startRequest id1, ⟨none, some id1⟩) ∧
    makeRequestStep cfg true now2 id2 (⟨none, some id1⟩ : CacheState T) =
      (.returnPending id1, ⟨none, some id1⟩) ∧
    actionInvocations
        (makeRequestStep cfg true now id1 (⟨none, none⟩ : CacheState T)).1 +
      actionInvocations
        (makeRequestStep cfg true now2 id2 (⟨none, some id1⟩ : CacheState T)).1 =
      1 := by
  have h1 : makeRequestStep cfg true now id1 (⟨none, none⟩ : CacheState T) =
      (.startRequest id1, ⟨none, some id1⟩) := by
    simp [makeRequestStep, cacheGet, hc, hd, makeRequestStart]
  have h2 : makeRequestStep cfg true now2 id2 (⟨none, some id1⟩ : CacheState T) =
      (.returnPending id1, ⟨none, some id1⟩) := by
    simp [makeRequestStep, cacheGet, hc, hd]
  refine ⟨h1, h2, ?_⟩
  rw [h1, h2]
  rfl

/-- C9, witness: the two-call scenario at the default config. -/
theorem C9_witness :
    makeRequestStep ({} : ReqConfig) true 0 5 (⟨none, none⟩ : CacheState ℕ) =
      (.startRequest 5, ⟨none, some 5⟩) ∧
    makeRequestStep ({} : ReqConfig) true 1 7 (⟨none, some 5⟩ : CacheState ℕ) =
      (.returnPending 5, ⟨none, some 5⟩) ∧
    actionInvocations
        (makeRequestStep ({} : ReqConfig) true 0 5 (⟨none, none⟩ : CacheState ℕ)).1 +
      actionInvocations
        (makeRequestStep ({} : ReqConfig) true 1 7
            (⟨none, some 5⟩ : CacheState ℕ)).1 = 1 :=
  C9_theorem ({} : ReqConfig) 0 1 5 7 rfl rfl

/-- C10: with `enableCache: false` every call starts a request — the cache
lookup and the in-flight deduplication check are both skipped, whatever
the state and whatever `deduplication` says; conversely a call can only
adopt a pending request when a cache key was supplied, `enableCache` is
true and `deduplication` is true. -/
theorem C10_theorem {T : Type} :
    (∀ cfg : ReqConfig, cfg.enableCache = false →
       ∀ (hasKey : Bool) (now : ℚ) (newId : ℕ) (st : CacheState T),
         (makeRequestStep cfg hasKey now newId st).1 = .startRequest newId) ∧
    (∀ (cfg : ReqConfig) (hasKey : Bool) (now : ℚ) (newId pid : ℕ)
        (st : CacheState T),
       (makeRequestStep cfg hasKey now newId st).1 = .returnPending pid →
       hasKey = true ∧ cfg.enableCache = true ∧ cfg.deduplication = true) := by
  constructor
  · intro cfg h hasKey now newId st
    simp [makeRequestStep, h, makeRequestStart]
  · intro cfg hasKey now newId pid st h
    rcases st with ⟨entry, pend⟩
    by_cases h1 : (hasKey && cfg.enableCache) = true
    · rw [Bool.and_eq_true] at h1
      obtain ⟨hk, hcache⟩ := h1
      have h1 : (hasKey && cfg.enableCache) = true := by simp [hk, hcache]
      refine ⟨hk, hcache, ?_⟩
      by_cases h2 : cfg.deduplication = true
      · exact h2
      · exfalso
        rcases entry with _ | ⟨d, exp⟩
        · simp [makeRequestStep, h1, h2, cacheGet, makeRequestStart] at h
        · by_cases h3 : now > exp
          · simp [makeRequestStep, h1, h2, cacheGet, h3, makeRequestStart] at h
          · simp [makeRequestStep, h1, h2, cacheGet, h3, makeRequestStart] at h
    · exfalso
      simp [makeRequestStep, h1, makeRequestStart] at h

/-- C10, witness: with `enableCache: false`, even a state holding both a
live cache entry and a pending request for the key yields a fresh request
(the default `deduplication = true` notwithstanding); and a pending
adoption under the default config certifies `enableCache`/`deduplication`
were on. -/
theorem C10_witness :
    (makeRequestStep { enableCache := false } true 0 9
        (⟨some (0, 100), some 3⟩ : CacheState ℕ)).1 = ReqAction.startRequest 9 ∧
    (true = true ∧ ({} : ReqConfig).enableCache = true ∧
      ({} : ReqConfig).deduplication = true) :=
  ⟨(@C10_theorem ℕ).1 { enableCache := false } rfl true 0 9 ⟨some (0, 100), some 3⟩,
   (@C10_theorem ℕ).2 {} true 0 9 3 ⟨none, some 3⟩ rfl⟩

/-- C6, witness: concrete run of the amended statement on a one-row
table. -/
theorem C6_witness :
    (((insertCVE (insertCVE initialTable (sampleRec "a")).1
          (sampleRec "b")).1.rows.filter
        fun s => s.payload.cve_id = (sampleRec "a").cve_id).map CVERow.id =
      [2]) ∧ (1 : ℕ) ≠ 2 :=
  C6_theorem (insertCVE initialTable (sampleRec "a")).1 (sampleRec "b")
    ⟨1, sampleRec "a"⟩ ⟨by decide, by decide⟩ (by decide) rfl

/-- C1: a blocking sync started while the single-flight flag is set fails
with `'Sync operation is already in progress'` and changes nothing;
`startBackgroundSync` is guarded by a check on the same flag and starts
nothing while it is set; and a blocking run started from an idle state —
whether it succeeds or fails, over any fetch outcome and health state —
leaves the flag released, so a fresh sync started afterwards proceeds into
its body and completes. -/
theorem C1_theorem (st : SyncState) (d : Bool) (f : Except String (List CVERec))
    (se : ℕ → Option String) :
    (st.isRunning = true →
      syncCVEData st d f se =
        (.error "Sync operation is already in progress", st)) ∧
    (st.isRunning = true → startBackgroundSync st = (false, st)) ∧
    (st.isRunning = false →
      (syncCVEData st d f se).2.isRunning = false ∧
      ∀ (cves : List CVERec) (se2 : ℕ → Option String),
        (syncCVEData (syncCVEData st d f se).2 true (.ok cves) se2).1 =
          .ok (syncBody cves se2)) := by
  refine ⟨?_, ?_, ?_⟩
  · intro h
    simp [syncCVEData, h]
  · intro h
    simp [startBackgroundSync, h]
  · intro h
    have h2 : (syncCVEData st d f se).2.isRunning = false := by
      simp only [syncCVEData, h, Bool.false_eq_true, if_false]
      cases d
      · simp
      · cases f <;> simp
    refine ⟨h2, fun cves se2 => ?_⟩
    generalize hg : (syncCVEData st d f se).2 = st2 at h2 ⊢
    simp [syncCVEData, h2]

/-- C1, witness: a running-state conflict, the guarded background start,
and a failed run (unhealthy database) releasing the flag for a successful
follow-up sync. -/
theorem C1_witness :
    syncCVEData ⟨true, false, none⟩ true (.ok []) (fun _ => none) =
      (.error "Sync operation is already in progress", ⟨true, false, none⟩) ∧
    startBackgroundSync ⟨true, false, none⟩ = (false, ⟨true, false, none⟩) ∧
    (syncCVEData ⟨false, false, none⟩ false (.error "boom")
        (fun _ => none)).2.isRunning = false ∧
    (syncCVEData
        (syncCVEData ⟨false, false, none⟩ false (.error "boom")
          (fun _ => none)).2
        true (.ok [sampleRec "a"]) (fun _ => none)).1 =
      .ok (syncBody [sampleRec "a"] (fun _ => none)) :=
  ⟨(C1_theorem ⟨true, false, none⟩ true (.ok []) (fun _ => none)).1 rfl,
   (C1_theorem ⟨true, false, none⟩ true (.ok []) (fun _ => none)).2.1 rfl,
   ((C1_theorem ⟨false, false, none⟩ false (.error "boom")
       (fun _ => none)).2.2 rfl).1,
   ((C1_theorem ⟨false, false, none⟩ false (.error "boom")
       (fun _ => none)).2.2 rfl).2 [sampleRec "a"] (fun _ => none)⟩

/-- The store loop's tally and error list, characterized against the
traversal: stored plus errored equals the input size, and the error list
holds exactly the failing records (in order) with their messages. -/
theorem storeLoopFrom_spec (se : ℕ → Option String) :
    ∀ (i : ℕ) (cves : List CVERec),
      (storeLoopFrom se i cves).1 + (storeLoopFrom se i cves).2.length =
        cves.length ∧
      (storeLoopFrom se i cves).2 =
        (List.enumFrom i cves).filterMap
          (fun p => (se p.1).map fun m => ⟨p.2.cve_id, m⟩) := by
  intro i cves
  induction cves generalizing i with
  | nil => simp [storeLoopFrom]
  | cons c rest ih =>
    obtain ⟨ih1, ih2⟩ := ih (i + 1)
    cases hse : se i with
    | none =>
      refine ⟨?_, ?_⟩
      · simp only [storeLoopFrom, hse, List.length_cons]
        omega
      · simp only [storeLoopFrom, hse, List.enumFrom, List.filterMap_cons,
          Option.map_none]
        exact ih2
    | some m =>
      refine ⟨?_, ?_⟩
      · simp only [storeLoopFrom, hse, List.length_cons, List.length_cons]
        omega
      · simp [storeLoopFrom, hse, List.enumFrom, List.filterMap_cons, ih2]

/-- C3: a blocking sync from an idle state whose fetch succeeds with `N`
records resolves (rather than throwing) with a result whose `success` is
true even when stores failed, whose `fetched` is `N`, whose `errors` list
captures exactly the failing per-record stores (the loop is never
aborted), and whose tallies satisfy `stored + errors.length = N`. -/
theorem C3_theorem (st : SyncState) (cves : List CVERec)
    (se : ℕ → Option String) (h : st.isRunning = false) :
    (syncCVEData st true (.ok cves) se).1 = .ok (syncBody cves se) ∧
    (syncBody cves se).success = true ∧
    (syncBody cves se).fetched = cves.length ∧
    (syncBody cves se).stored + (syncBody cves se).errors.length =
      cves.length ∧
    (syncBody cves se).errors =
      (List.enum cves).filterMap
        (fun p => (se p.1).map fun m => ⟨p.2.cve_id, m⟩) := by
  have hs := storeLoopFrom_spec se 0 cves
  refine ⟨by simp [syncCVEData, h], ?_, ?_, ?_, ?_⟩
  · simp only [syncBody]
    split_ifs <;> rfl
  · simp only [syncBody]
    split_ifs with hlen
    · simp [hlen]
    · rfl
  · simp only [syncBody]
    split_ifs with hlen
    · simp [hlen]
    · exact hs.1
  · simp only [syncBody]
    split_ifs with hlen
    · have hnil : cves = [] := List.length_eq_zero.mp hlen
      subst hnil
      simp
    · exact hs.2

/-- C3, witness: a two-record fetch where the second store fails: the run
resolves with the success result and the tally `1 + 1 = 2`. -/
theorem C3_witness :
    (syncCVEData ⟨false, false, none⟩ true
        (.ok [sampleRec "a", sampleRec "b"])
        (fun i => if i = 0 then none else some "disk full")).1 =
      .ok (syncBody [sampleRec "a", sampleRec "b"]
        (fun i => if i = 0 then none else some "disk full")) ∧
    (syncBody [sampleRec "a", sampleRec "b"]
        (fun i => if i = 0 then none else some "disk full")).stored +
      (syncBody [sampleRec "a", sampleRec "b"]
        (fun i => if i = 0 then none else some "disk full")).errors.length =
      2 :=
  ⟨(C3_theorem ⟨false, false, none⟩ [sampleRec "a", sampleRec "b"]
      (fun i => if i = 0 then none else some "disk full") rfl).1,
   (C3_theorem ⟨false, false, none⟩ [sampleRec "a", sampleRec "b"]
      (fun i => if i = 0 then none else some "disk full") rfl).2.2.2.1⟩

/-- Resolving store tasks does not touch the published progress trace. -/
theorem resolveStores_trace (k : ℕ) (s : BgState) :
    (resolveStores k s).trace = s.trace := by
  induction k generalizing s with
  | zero => rfl
  | succ m ih =>
    cases hp : s.pending with
    | nil => simp [resolveStores, hp]
    | cons t rest => simp [resolveStores, hp, ih]

/-- Resolving store tasks moves their successes from the pending side to
the `totalStored` accumulator: the combined tally is invariant. -/
theorem resolveStores_acct (k : ℕ) (s : BgState) :
    (resolveStores k s).stored + ((resolveStores k s).pending.map Prod.fst).sum =
      s.stored + (s.pending.map Prod.fst).sum := by
  induction k generalizing s with
  | zero => rfl
  | succ m ih =>
    cases hp : s.pending with
    | nil => simp [resolveStores, hp]
    | cons t rest =>
      simp only [resolveStores, hp]
      rw [ih]
      simp only [hp, List.map_cons, List.sum_cons]
      omega

/-- Shape and accounting of a background fetch loop run from any state:
the published phases are the starting trace's, then one `fetching` per
chunk, then `storing` immediately followed by `complete`; at least one
store task is outstanding at `complete`; the reported stored tally plus
the successes still locked in outstanding tasks equals the prior tally
plus every chunk's store successes; and the last published progress is the
`complete` one carrying the result's tallies. -/
theorem bgRun_spec (totalResults : ℕ) :
    ∀ (chunks : List Chunk) (sched : List ℕ) (s : BgState), chunks ≠ [] →
      ((bgRun totalResults chunks sched s).trace.map SyncProgress.phase =
        s.trace.map SyncProgress.phase ++
          List.replicate chunks.length SyncPhase.fetching ++
          [SyncPhase.storing, SyncPhase.complete]) ∧
      (bgRun totalResults chunks sched s).outstanding ≠ [] ∧
      ((bgRun totalResults chunks sched s).result.stored +
          ((bgRun totalResults chunks sched s).outstanding.map Prod.fst).sum =
        s.stored + (s.pending.map Prod.fst).sum +
          (chunks.map fun c => (storeLoop c.records c.storeErr).1).sum) ∧
      (bgRun totalResults chunks sched s).trace.getLast? =
        some ⟨(bgRun totalResults chunks sched s).result.stored,
          (bgRun totalResults chunks sched s).result.fetched, 100,
          SyncPhase.complete⟩ := by
  intro chunks
  induction chunks with
  | nil => intro _ _ h; exact absurd rfl h
  | cons c rest ih =>
    intro sched s _
    rcases rest with _ | ⟨c2, rest2⟩
    · refine ⟨?_, by simp [bgRun, bgComplete], ?_, ?_⟩
      · simp [bgRun, bgComplete, List.replicate, bgFetchProgress]
      · simp only [bgRun, bgComplete]
        simp [List.sum_append]
        omega
      · simp only [bgRun, bgComplete]
        have hsplit :
            ∀ (l : List SyncProgress) (p q : SyncProgress),
              l ++ [p, q] = (l ++ [p]) ++ [q] := by simp
        rw [hsplit, List.getLast?_concat]
    · have hne : (c2 :: rest2 : List Chunk) ≠ [] := by simp
      obtain ⟨ih1, ih2, ih3, ih4⟩ :=
        ih sched.tail (resolveStores (sched.headD 0)
          ⟨s.fetched + c.records.length,
           s.pending ++ [storeLoop c.records c.storeErr], s.stored, s.errors,
           s.trace ++ [bgFetchProgress totalResults
             (s.fetched + c.records.length)]⟩) hne
      have hstep :
          bgRun totalResults (c :: c2 :: rest2) sched s =
            bgRun totalResults (c2 :: rest2) sched.tail
              (resolveStores (sched.headD 0)
                ⟨s.fetched + c.records.length,
                 s.pending ++ [storeLoop c.records c.storeErr], s.stored,
                 s.errors,
                 s.trace ++ [bgFetchProgress totalResults
                   (s.fetched + c.records.length)]⟩) := rfl
      rw [hstep]
      refine ⟨?_, ih2, ?_, ih4⟩
      · rw [ih1, resolveStores_trace]
        simp [List.replicate_succ, bgFetchProgress]
      · rw [ih3, resolveStores_acct]
        simp only [List.map_append, List.sum_append, List.map_cons,
          List.sum_cons, List.map_nil, List.sum_nil]
        omega

/-- C2, counterexample: a background run fetching a single chunk of one
record whose store succeeds. The run publishes `storing` and then
`complete` immediately after the fetch resolves, while the chunk's store
task — worth 1 stored record — is still outstanding: the `complete` phase
(and the final tally, 0 stored out of 1 fetched) is reported with a
chunk-store task outstanding, contradicting the claim. -/
theorem C2_counterexample :
    (backgroundSyncRun 1 [⟨[sampleRec "only"], fun _ => none⟩] []).outstanding =
      [(1, [])] ∧
    (backgroundSyncRun 1 [⟨[sampleRec "only"], fun _ => none⟩] []).result.stored =
      0 ∧
    (backgroundSyncRun 1 [⟨[sampleRec "only"], fun _ => none⟩] []).result.fetched =
      1 ∧
    (backgroundSyncRun 1 [⟨[sampleRec "only"], fun _ => none⟩] []).trace.map
        SyncProgress.phase =
      [.fetching, .fetching, .storing, .complete] :=
  ⟨rfl, rfl, rfl, rfl⟩

/-- C2 (amended): in every background run, the progress phase does move to
`storing` only once fetching has completed — but it then moves to
`complete` in the same synchronous continuation, with at least one
chunk-store task still outstanding (the final chunk's store can never have
resolved yet); the published final tally counts only the stores that
resolved before fetching completed, the successes of the outstanding tasks
being exactly the shortfall against the chunks' total store successes. -/
theorem C2_theorem (totalResults : ℕ) (chunks : List Chunk) (sched : List ℕ)
    (h : chunks ≠ []) :
    ((backgroundSyncRun totalResults chunks sched).trace.map SyncProgress.phase =
      List.replicate (chunks.length + 1) SyncPhase.fetching ++
        [SyncPhase.storing, SyncPhase.complete]) ∧
    (backgroundSyncRun totalResults chunks sched).outstanding ≠ [] ∧
    ((backgroundSyncRun totalResults chunks sched).result.stored +
        ((backgroundSyncRun totalResults chunks sched).outstanding.map
          Prod.fst).sum =
      (chunks.map fun c => (storeLoop c.records c.storeErr).1).sum) ∧
    (backgroundSyncRun totalResults chunks sched).trace.getLast? =
      some ⟨(backgroundSyncRun totalResults chunks sched).result.stored,
        (backgroundSyncRun totalResults chunks sched).result.fetched, 100,
        SyncPhase.complete⟩ := by
  obtain ⟨h1, h2, h3, h4⟩ := bgRun_spec totalResults chunks sched
    ⟨0, [], 0, [], [⟨0, 0, 0, .fetching⟩]⟩ h
  refine ⟨?_, h2, ?_, h4⟩
  · rw [backgroundSyncRun, h1]
    simp [List.replicate_succ]
  · rw [backgroundSyncRun, h3]
    simp

/-- C2, witness: the amended statement evaluated on the one-chunk run. -/
theorem C2_witness :
    ((backgroundSyncRun 1 [⟨[sampleRec "only"], fun _ => none⟩] []).trace.map
        SyncProgress.phase =
      List.replicate 2 SyncPhase.fetching ++
        [SyncPhase.storing, SyncPhase.complete]) ∧
    (backgroundSyncRun 1 [⟨[sampleRec "only"], fun _ => none⟩] []).outstanding ≠
      [] ∧
    (backgroundSyncRun 1 [⟨[sampleRec "only"], fun _ => none⟩] []).result.stored +
        ((backgroundSyncRun 1 [⟨[sampleRec "only"], fun _ => none⟩]
            []).outstanding.map Prod.fst).sum =
      1 := by
  have h := C2_theorem 1 [⟨[sampleRec "only"], fun _ => none⟩] [] (by simp)
  exact ⟨h.1, h.2.1, by rw [h.2.2.1]; rfl⟩

end RSec
